import Mathlib

/-!
Verification of the segmentation core of `instagramStoryParts`
(`instavideosplitter.py`), shallowly embedded over exact rationals.
Durations and timestamps (Python floats) are modelled as `ℚ`; external
processes (ffmpeg/ffprobe invocations, filesystem moves) are modelled as
`Except String Unit` oracles whose `error` carries the diagnostic text.
-/

/-- One planned output segment: `i+1`-based index, start/end times (seconds)
and the black-padding duration appended after export.  `stop` embeds the
Python variable `part_end` (`end` is a Lean keyword). -/
structure SegmentPlan where
  index : Nat
  start : ℚ
  stop : ℚ
  padTime : ℚ
  deriving DecidableEq, Repr

/-- Embeds `adjust_to_keyframe` (instavideosplitter.py:95-110): Python
`min(keyframes, key=lambda x: abs(x - time))` keeps the first element and
replaces it only when a strictly smaller key appears, so ties resolve to the
earliest candidate; an empty list returns `time` unchanged. -/
def adjust_to_keyframe (time : ℚ) (keyframes : List ℚ) : ℚ :=
  match keyframes with
  | [] => time
  | k :: ks => ks.foldl (fun best x => if |x - time| < |best - time| then x else best) k

/-- Embeds instavideosplitter.py:209-211: `num_parts = int(vd // sd)` plus one
when `vd % sd != 0` (Python float floor-division and modulo). -/
def numParts (videoDuration segmentDuration : ℚ) : Nat :=
  let base := (⌊videoDuration / segmentDuration⌋).toNat
  if videoDuration - segmentDuration * (⌊videoDuration / segmentDuration⌋ : ℚ) ≠ 0 then
    base + 1
  else
    base

/-- Embeds instavideosplitter.py:225-227: nominal start `i * sd`, snapped to
the nearest keyframe, shifted by `offset`, clamped to `[0, videoDuration]`. -/
def clampedStart (videoDuration segmentDuration offset : ℚ) (keyframes : List ℚ)
    (i : Nat) : ℚ :=
  max 0 (min (adjust_to_keyframe (i * segmentDuration) keyframes + offset) videoDuration)

/-- Embeds the body of the per-part loop (instavideosplitter.py:224-244),
instrumented with a flag recording whether `ask_allow_long_last_part` was
invoked.  `ask = none` models passing `None` for the callback (the Python
`if ask_allow_long_last_part and ...` short-circuit). -/
def planPartInstr (videoDuration segmentDuration offset : ℚ) (keyframes : List ℚ)
    (ask : Option (ℚ → Bool)) (numParts_ i : Nat) : SegmentPlan × Bool :=
  let part_start := clampedStart videoDuration segmentDuration offset keyframes i
  let part_end := min (part_start + segmentDuration) videoDuration
  if i = numParts_ - 1 then
    let actual_length := videoDuration - part_start
    if actual_length < segmentDuration then
      ({ index := i + 1, start := part_start, stop := part_end,
         padTime := segmentDuration - actual_length }, false)
    else if actual_length > segmentDuration ∧
        actual_length ≤ segmentDuration * (11/10) then
      match ask with
      | some c =>
          if c actual_length then
            ({ index := i + 1, start := part_start, stop := videoDuration,
               padTime := 0 }, true)
          else
            ({ index := i + 1, start := part_start,
               stop := min (part_start + segmentDuration) videoDuration,
               padTime := 0 }, true)
      | none =>
          ({ index := i + 1, start := part_start,
             stop := min (part_start + segmentDuration) videoDuration,
             padTime := 0 }, false)
    else
      ({ index := i + 1, start := part_start,
         stop := min (part_start + segmentDuration) videoDuration,
         padTime := 0 }, false)
  else
    ({ index := i + 1, start := part_start, stop := part_end, padTime := 0 }, false)

/-- The plan computed for part `i` (loop body without the instrumentation). -/
def planPart (videoDuration segmentDuration offset : ℚ) (keyframes : List ℚ)
    (ask : Option (ℚ → Bool)) (numParts_ i : Nat) : SegmentPlan :=
  (planPartInstr videoDuration segmentDuration offset keyframes ask numParts_ i).1

/-- The full plan list produced by the loop of `trim_video_to_parts`
(instavideosplitter.py:224-244) in index order. -/
def plans (videoDuration segmentDuration offset : ℚ) (keyframes : List ℚ)
    (ask : Option (ℚ → Bool)) : List SegmentPlan :=
  (List.range (numParts videoDuration segmentDuration)).map
    (planPart videoDuration segmentDuration offset keyframes ask
      (numParts videoDuration segmentDuration))

lemma numParts_125_60 : numParts 125 60 = 3 := by
  unfold numParts; norm_num; decide

example : numParts 120 60 = 2 := by unfold numParts; norm_num; decide
example : numParts 60 60 = 1 := by unfold numParts; norm_num
example : numParts 5 60 = 1 := by unfold numParts; norm_num

/-- The final plan is "confirmed elongated" when the small-overshoot window is
hit and the supplied confirmation callback answers `true`
(instavideosplitter.py:236-238). -/
def confirmedElongated (videoDuration segmentDuration offset : ℚ) (keyframes : List ℚ)
    (ask : Option (ℚ → Bool)) : Prop :=
  let start := clampedStart videoDuration segmentDuration offset keyframes
    (numParts videoDuration segmentDuration - 1)
  let actual := videoDuration - start
  actual > segmentDuration ∧ actual ≤ segmentDuration * (11/10) ∧
    (match ask with
     | some c => c actual = true
     | none => False)

/-- Embeds the output-file naming of instavideosplitter.py:246-247:
`os.path.join(output_dir, f"{base_name}-part{i+1}.mp4")`. -/
def outputPath (outputDir baseName : String) (i : Nat) : String :=
  outputDir ++ "/" ++ baseName ++ "-part" ++ toString (i + 1) ++ ".mp4"

/-- Embeds the dispatch loop and return value of `trim_video_to_parts`
(instavideosplitter.py:222-268).  The filesystem is a predicate `fsExists` on
paths; a part whose output path already exists is skipped (`continue`) before
submission, every other part is submitted as a task; the function returns the
submitted tasks together with `num_parts`, which is returned unconditionally. -/
def trim_video_to_parts (videoDuration segmentDuration offset : ℚ)
    (keyframes : List ℚ) (ask : Option (ℚ → Bool)) (fsExists : String → Bool)
    (outputDir baseName : String) : List (SegmentPlan × String) × Nat :=
  let n := numParts videoDuration segmentDuration
  ((List.range n).filterMap (fun i =>
    let path := outputPath outputDir baseName i
    if fsExists path then none
    else some (planPart videoDuration segmentDuration offset keyframes ask n i, path)),
   n)

/-!  The exporter (`export_part`, `pad_with_black`, `export_and_pad`).
External effects are oracles: `Except String Unit` where `error` carries the
diagnostic string of a failed ffmpeg/moviepy/filesystem step. -/

/-- Embeds `export_part` (instavideosplitter.py:112-136): runs the cut
subprocess; on success returns `(output_path, true, none)`, on
`CalledProcessError` returns `(output_path, false, some diagnostic)`. -/
def export_part (cut : Except String Unit) (output_path : String) :
    String × Bool × Option String :=
  match cut with
  | .ok _ => (output_path, true, none)
  | .error e => (output_path, false, some e)

/-- Result of `pad_with_black`: the returned `(ok, err)` pair plus whether
`os.replace` moved the temporary file over the target path. -/
structure PadResult where
  ok : Bool
  err : Option String
  replaced : Bool
  deriving DecidableEq, Repr

/-- The module-global names referenced by the `final.write_videofile` call in
`pad_with_black` (instavideosplitter.py:154-165), in Python keyword-argument
evaluation order.  `AUDIO_CODEC`/`AUDIO_BITRATE` appear in conditional
expressions evaluated only when the clip has audio. -/
def padWriteNames (hasAudio : Bool) : List String :=
  if hasAudio then ["AUDIO_CODEC", "AUDIO_BITRATE", "PRESET", "THREADS", "AUDIO_CHANNELS"]
  else ["PRESET", "THREADS", "AUDIO_CHANNELS"]

/-- The global namespace of the `instavideosplitter` module: its imports
(instavideosplitter.py:1-12), module constants (lines 15-17) and function
definitions.  It does not import `export_part.py`, so none of that module's
encoder constants are bound here. -/
def instavideosplitter_globals : List String :=
  ["VideoFileClip", "ColorClip", "AudioClip", "concatenate_videoclips", "np",
   "os", "sys", "subprocess", "shlex", "ThreadPoolExecutor", "as_completed",
   "imageio_ffmpeg", "mpy_config", "json", "shutil",
   "Tuple", "Optional", "Dict", "Any", "List",
   "FFMPEG_BINARY", "SEGMENT_DURATION_DEFAULT", "MAX_WORKERS",
   "get_ffprobe_path", "run_ffprobe", "get_keyframes", "adjust_to_keyframe",
   "export_part", "pad_with_black", "export_and_pad", "trim_video_to_parts"]

/-- Embeds `pad_with_black` (instavideosplitter.py:138-171) as run in a module
whose global namespace is `env`.  `load` abstracts the clip-loading and
filler-construction steps (lines 141-152), `write` the `write_videofile`
encode (once its arguments evaluate), `move` the `os.replace` (line 168).
Python resolves each free name in the write call against `env`; the first
unbound one raises `NameError`, which the `except Exception` handler (line
170) converts into `(False, str(e))` with no file replaced. -/
def pad_with_black (env : List String) (hasAudio : Bool)
    (load write move : Except String Unit) : PadResult :=
  match load with
  | .error e => ⟨false, some e, false⟩
  | .ok _ =>
    match (padWriteNames hasAudio).find? (fun n => !env.contains n) with
    | some n => ⟨false, some ("NameError: name " ++ n ++ " is not defined"), false⟩
    | none =>
      match write with
      | .error e => ⟨false, some e, false⟩
      | .ok _ =>
        match move with
        | .error e => ⟨false, some e, false⟩
        | .ok _ => ⟨true, none, true⟩

/-- Embeds `export_and_pad` (instavideosplitter.py:173-180), instrumented with
a flag recording whether `pad_with_black` was invoked: cut first; only if the
cut succeeded and `pad_time > 0` run the pad, whose failure overrides the
result with `(output_path, False, perr)`. -/
def export_and_pad_instr (env : List String) (hasAudio : Bool)
    (cut load write move : Except String Unit) (output_path : String)
    (pad_time : ℚ) : (String × Bool × Option String) × Bool :=
  let r := export_part cut output_path
  if r.2.1 = true ∧ 0 < pad_time then
    let p := pad_with_black env hasAudio load write move
    (if p.ok then r else (output_path, false, p.err), true)
  else
    (r, false)

/-- `export_and_pad` without the instrumentation. -/
def export_and_pad (env : List String) (hasAudio : Bool)
    (cut load write move : Except String Unit) (output_path : String)
    (pad_time : ℚ) : String × Bool × Option String :=
  (export_and_pad_instr env hasAudio cut load write move output_path pad_time).1

/-!  The keyframe index (`get_keyframes`). -/

/-- One frame record as parsed from the prober JSON: its picture type and the
two possible timestamp fields. -/
structure FrameInfo where
  pict_kind : String
  pkt_pts_time : Option ℚ
  pts_time : Option ℚ
  deriving DecidableEq, Repr

/-- Embeds `get_keyframes` (instavideosplitter.py:72-93): a failed or
frame-less probe (`data = none`) yields `[]`; otherwise the loop appends, in
prober order, `float(time)` for every frame whose `pict_type` is `"I"`,
taking `pkt_pts_time` and falling back to `pts_time` when it is absent. -/
def get_keyframes (data : Option (List FrameInfo)) : List ℚ :=
  match data with
  | none => []
  | some frames =>
    frames.foldl (fun acc f =>
      if f.pict_kind = "I" then
        match f.pkt_pts_time.orElse (fun _ => f.pts_time) with
        | some t => acc ++ [t]
        | none => acc
      else acc) []

/-!  Helper lemmas about the planner. -/

lemma clampedStart_nonneg (vd sd offset : ℚ) (kfs : List ℚ) (i : Nat) :
    0 ≤ clampedStart vd sd offset kfs i :=
  le_max_left _ _

lemma clampedStart_le_vd (vd sd offset : ℚ) (kfs : List ℚ) (i : Nat) (h : 0 ≤ vd) :
    clampedStart vd sd offset kfs i ≤ vd :=
  max_le h (min_le_right _ _)

lemma planPart_index (vd sd offset : ℚ) (kfs : List ℚ) (ask : Option (ℚ → Bool))
    (n i : Nat) : (planPart vd sd offset kfs ask n i).index = i + 1 := by
  unfold planPart planPartInstr
  cases ask <;> dsimp only <;> (repeat' split) <;> rfl

lemma planPartInstr_ne_final (vd sd offset : ℚ) (kfs : List ℚ)
    (ask : Option (ℚ → Bool)) (n i : Nat) (h : i ≠ n - 1) :
    planPartInstr vd sd offset kfs ask n i =
      ({ index := i + 1, start := clampedStart vd sd offset kfs i,
         stop := min (clampedStart vd sd offset kfs i + sd) vd,
         padTime := 0 }, false) := by
  unfold planPartInstr
  rw [if_neg h]

lemma planPartInstr_final_pad (vd sd offset : ℚ) (kfs : List ℚ)
    (ask : Option (ℚ → Bool)) (n : Nat)
    (h : vd - clampedStart vd sd offset kfs (n - 1) < sd) :
    planPartInstr vd sd offset kfs ask n (n - 1) =
      ({ index := n - 1 + 1, start := clampedStart vd sd offset kfs (n - 1),
         stop := min (clampedStart vd sd offset kfs (n - 1) + sd) vd,
         padTime := sd - (vd - clampedStart vd sd offset kfs (n - 1)) }, false) := by
  unfold planPartInstr
  rw [if_pos rfl, if_pos h]

lemma planPartInstr_final_window_some (vd sd offset : ℚ) (kfs : List ℚ)
    (c : ℚ → Bool) (n : Nat)
    (h1 : sd < vd - clampedStart vd sd offset kfs (n - 1))
    (h2 : vd - clampedStart vd sd offset kfs (n - 1) ≤ sd * (11/10)) :
    planPartInstr vd sd offset kfs (some c) n (n - 1) =
      ({ index := n - 1 + 1, start := clampedStart vd sd offset kfs (n - 1),
         stop := if c (vd - clampedStart vd sd offset kfs (n - 1)) then vd
                 else min (clampedStart vd sd offset kfs (n - 1) + sd) vd,
         padTime := 0 }, true) := by
  unfold planPartInstr
  rw [if_pos rfl, if_neg (not_lt.mpr h1.le), if_pos ⟨h1, h2⟩]
  dsimp only
  by_cases hc : c (vd - clampedStart vd sd offset kfs (n - 1))
  · rw [if_pos hc, if_pos hc]
  · rw [if_neg hc, if_neg hc]

lemma planPartInstr_final_window_none (vd sd offset : ℚ) (kfs : List ℚ) (n : Nat)
    (h1 : sd < vd - clampedStart vd sd offset kfs (n - 1))
    (h2 : vd - clampedStart vd sd offset kfs (n - 1) ≤ sd * (11/10)) :
    planPartInstr vd sd offset kfs none n (n - 1) =
      ({ index := n - 1 + 1, start := clampedStart vd sd offset kfs (n - 1),
         stop := min (clampedStart vd sd offset kfs (n - 1) + sd) vd,
         padTime := 0 }, false) := by
  unfold planPartInstr
  rw [if_pos rfl, if_neg (not_lt.mpr h1.le), if_pos ⟨h1, h2⟩]

lemma planPartInstr_final_nowindow (vd sd offset : ℚ) (kfs : List ℚ)
    (ask : Option (ℚ → Bool)) (n : Nat)
    (hge : sd ≤ vd - clampedStart vd sd offset kfs (n - 1))
    (hout : ¬(sd < vd - clampedStart vd sd offset kfs (n - 1) ∧
      vd - clampedStart vd sd offset kfs (n - 1) ≤ sd * (11/10))) :
    planPartInstr vd sd offset kfs ask n (n - 1) =
      ({ index := n - 1 + 1, start := clampedStart vd sd offset kfs (n - 1),
         stop := min (clampedStart vd sd offset kfs (n - 1) + sd) vd,
         padTime := 0 }, false) := by
  unfold planPartInstr
  rw [if_pos rfl, if_neg (not_lt.mpr hge), if_neg hout]

lemma plans_length (vd sd offset : ℚ) (kfs : List ℚ) (ask : Option (ℚ → Bool)) :
    (plans vd sd offset kfs ask).length = numParts vd sd := by
  simp [plans]

lemma numParts_eq_ceil (vd sd : ℚ) (hvd : 0 < vd) (hsd : 0 < sd) :
    numParts vd sd = (⌈vd / sd⌉).toNat := by
  unfold numParts
  have hx : 0 < vd / sd := div_pos hvd hsd
  have hfl : (0 : ℤ) ≤ ⌊vd / sd⌋ := Int.floor_nonneg.mpr hx.le
  by_cases h : vd - sd * (⌊vd / sd⌋ : ℚ) = 0
  · have heq : (⌊vd / sd⌋ : ℚ) = vd / sd := by
      rw [eq_div_iff hsd.ne', mul_comm]
      linarith
    rw [if_neg (by simpa using h)]
    have hc : ⌈vd / sd⌉ = ⌊vd / sd⌋ := by
      conv_lhs => rw [← heq]
      exact Int.ceil_intCast _
    rw [hc]
  · have hne : (⌊vd / sd⌋ : ℚ) ≠ vd / sd := by
      intro hc
      apply h
      have hm : sd * (vd / sd) = vd := by field_simp
      rw [hc, hm, sub_self]
    have hlt : (⌊vd / sd⌋ : ℚ) < vd / sd := lt_of_le_of_ne (Int.floor_le _) hne
    have hceil : ⌈vd / sd⌉ = ⌊vd / sd⌋ + 1 := by
      have hub := Int.ceil_le_floor_add_one (vd / sd)
      have hlb : ⌊vd / sd⌋ < ⌈vd / sd⌉ := Int.lt_ceil.mpr hlt
      omega
    rw [if_pos (by simpa using h), hceil]
    omega

/-- C1: for every `videoDuration > 0` and `segmentDuration > 0` the planner
produces exactly `ceil(videoDuration / segmentDuration)` plans, at least 1,
with 1-based indices `1..N` in ascending order with no gaps or duplicates. -/
theorem C1_planner_part_count (vd sd offset : ℚ) (kfs : List ℚ)
    (ask : Option (ℚ → Bool)) (hvd : 0 < vd) (hsd : 0 < sd) :
    (plans vd sd offset kfs ask).length = (⌈vd / sd⌉).toNat ∧
    1 ≤ (plans vd sd offset kfs ask).length ∧
    (plans vd sd offset kfs ask).map SegmentPlan.index =
      List.range' 1 (plans vd sd offset kfs ask).length := by
  refine ⟨?_, ?_, ?_⟩
  · rw [plans_length, numParts_eq_ceil vd sd hvd hsd]
  · rw [plans_length, numParts_eq_ceil vd sd hvd hsd]
    have : 0 < ⌈vd / sd⌉ := Int.ceil_pos.mpr (div_pos hvd hsd)
    omega
  · rw [plans_length]
    unfold plans
    rw [List.map_map, List.range'_eq_map_range]
    apply List.map_congr_left
    intro i _
    simp [planPart_index, Nat.add_comm]

/-- C1 witness: the 125s / 60s scenario has 3 = ⌈125/60⌉ plans indexed 1..3. -/
theorem C1_planner_part_count_witness :
    (plans 125 60 0 [] none).length = (⌈(125 : ℚ) / 60⌉).toNat ∧
    1 ≤ (plans 125 60 0 [] none).length ∧
    (plans 125 60 0 [] none).map SegmentPlan.index =
      List.range' 1 (plans 125 60 0 [] none).length :=
  C1_planner_part_count 125 60 0 [] none (by norm_num) (by norm_num)

/-!  C4: the 125s/60s/no-keyframe scenario. -/

lemma plans_125_60_nokf : plans 125 60 0 [] none =
    [⟨1, 0, 60, 0⟩, ⟨2, 60, 120, 0⟩, ⟨3, 120, 125, 55⟩] := by
  unfold plans
  rw [numParts_125_60]
  norm_num [List.range_succ, planPart, planPartInstr, clampedStart, adjust_to_keyframe]

/-- C4 counterexample: in the `videoDuration=125, segmentDuration=60, offset=0,
keyframes=[]` scenario the final plan is `[120,125)` with `padTime = 55`
(`60 - 5`), not `35` as the claim states. -/
theorem C4_scenario_cex :
    ((plans 125 60 0 [] none)[2]?).map SegmentPlan.padTime = some 55 ∧
    (55 : ℚ) ≠ 35 := by
  rw [plans_125_60_nokf]
  norm_num

/-- C4 amended: the scenario produces exactly the 3 plans `[0,60)` pad 0,
`[60,120)` pad 0 and `[120,125)` pad 55, padding the 5-second final segment
up to the uniform 60 seconds. -/
theorem C4_scenario_amended :
    plans 125 60 0 [] none = [⟨1, 0, 60, 0⟩, ⟨2, 60, 120, 0⟩, ⟨3, 120, 125, 55⟩] :=
  plans_125_60_nokf

/-!  C3: non-final parts. -/

lemma plans_125_60_kf125 : plans 125 60 0 [125] none =
    [⟨1, 125, 125, 0⟩, ⟨2, 125, 125, 0⟩, ⟨3, 125, 125, 60⟩] := by
  unfold plans
  rw [numParts_125_60]
  norm_num [List.range_succ, planPart, planPartInstr, clampedStart, adjust_to_keyframe]

/-- C3 counterexample: with a keyframe at 125 the first (non-final) plan is the
degenerate `[125, 125)` — the snapped, clamped range with `start ≥ end` — and
it is NOT replaced by the claimed unsnapped fallback `[0*60, min(1*60, 125)] =
[0, 60]`: no degeneracy detection exists in the planner. -/
theorem C3_degenerate_fallback_cex :
    (plans 125 60 0 [125] none)[0]? =
      some { index := 1, start := 125, stop := 125, padTime := 0 } ∧
    ¬ ((125 : ℚ) < 125) ∧ (125 : ℚ) ≠ 0 ∧ (125 : ℚ) ≠ 60 := by
  rw [plans_125_60_kf125]
  norm_num

/-- C3 amended: every non-final part has `padTime = 0`, its start is exactly
the keyframe-snapped, offset, clamped value and its end exactly
`min(start + segmentDuration, videoDuration)`; the planner applies no
degenerate-range fallback, so a degenerate range is handed on unchanged. -/
theorem C3_nonfinal_amended (vd sd offset : ℚ) (kfs : List ℚ)
    (ask : Option (ℚ → Bool)) (n i : Nat) (h : i ≠ n - 1) :
    (planPart vd sd offset kfs ask n i).padTime = 0 ∧
    (planPart vd sd offset kfs ask n i).start = clampedStart vd sd offset kfs i ∧
    (planPart vd sd offset kfs ask n i).stop =
      min (clampedStart vd sd offset kfs i + sd) vd := by
  rw [planPart, planPartInstr_ne_final vd sd offset kfs ask n i h]
  exact ⟨rfl, rfl, rfl⟩

/-- C3 witness: part 1 of 3 in the no-keyframe scenario. -/
theorem C3_nonfinal_amended_witness :
    (planPart 125 60 0 [] none 3 0).padTime = 0 ∧
    (planPart 125 60 0 [] none 3 0).start = clampedStart 125 60 0 [] 0 ∧
    (planPart 125 60 0 [] none 3 0).stop = min (clampedStart 125 60 0 [] 0 + 60) 125 :=
  C3_nonfinal_amended 125 60 0 [] none 3 0 (by decide)

/-!  C5: the final-part small-overshoot policy. -/

/-- C5: on the final part, when
`segmentDuration < actualLength ≤ segmentDuration * 1.1` the planner invokes
the confirmation callback (flag `true`); a `true` answer extends the end to
`videoDuration`, a `false` answer clamps it to `start + segmentDuration`,
leaving the remainder uncovered.  When `actualLength > segmentDuration * 1.1`
the end is clamped without invoking the callback (flag `false`). -/
theorem C5_long_last_policy (vd sd offset : ℚ) (kfs : List ℚ) (c : ℚ → Bool)
    (n : Nat) (hsd : 0 < sd) :
    (sd < vd - clampedStart vd sd offset kfs (n - 1) →
      vd - clampedStart vd sd offset kfs (n - 1) ≤ sd * (11/10) →
      planPartInstr vd sd offset kfs (some c) n (n - 1) =
        ({ index := n - 1 + 1, start := clampedStart vd sd offset kfs (n - 1),
           stop := if c (vd - clampedStart vd sd offset kfs (n - 1)) then vd
                   else clampedStart vd sd offset kfs (n - 1) + sd,
           padTime := 0 }, true)) ∧
    (sd * (11/10) < vd - clampedStart vd sd offset kfs (n - 1) →
      planPartInstr vd sd offset kfs (some c) n (n - 1) =
        ({ index := n - 1 + 1, start := clampedStart vd sd offset kfs (n - 1),
           stop := clampedStart vd sd offset kfs (n - 1) + sd,
           padTime := 0 }, false)) := by
  constructor
  · intro h1 h2
    rw [planPartInstr_final_window_some vd sd offset kfs c n h1 h2]
    have hmin : min (clampedStart vd sd offset kfs (n - 1) + sd) vd =
        clampedStart vd sd offset kfs (n - 1) + sd := min_eq_left (by linarith)
    rw [hmin]
  · intro h
    have hsd11 : sd < sd * (11/10) := by nlinarith
    have hgt : sd < vd - clampedStart vd sd offset kfs (n - 1) := lt_trans hsd11 h
    rw [planPartInstr_final_nowindow vd sd offset kfs (some c) n hgt.le
      (fun hc => absurd hc.2 (not_le.mpr h))]
    have hmin : min (clampedStart vd sd offset kfs (n - 1) + sd) vd =
        clampedStart vd sd offset kfs (n - 1) + sd := min_eq_left (by linarith)
    rw [hmin]

/-- C5 witness: `videoDuration=125, segmentDuration=60, offset=-60` puts the
final start at 60, so `actualLength = 65 ≤ 66`; the declining callback is
invoked and the plan is clamped to `[60, 120)`. -/
theorem C5_long_last_policy_witness :
    planPartInstr 125 60 (-60) [] (some (fun _ => false)) 3 2 =
      ({ index := 3, start := 60, stop := 120, padTime := 0 }, true) := by
  have h := (C5_long_last_policy 125 60 (-60) [] (fun _ => false) 3 (by norm_num)).1
    (by norm_num [clampedStart, adjust_to_keyframe])
    (by norm_num [clampedStart, adjust_to_keyframe])
  norm_num [clampedStart, adjust_to_keyframe] at h
  exact h

/-!  C2: per-plan bounds and uniform output duration. -/

/-- C2 counterexample: with a keyframe at 100, the first plan — non-final and
not an elongated final segment — is `[100, 125)` with `padTime = 0`, so
`end - start + padDuration = 25 ≠ 60 = segmentDuration`: keyframe snapping can
break the uniform-duration equation for non-final parts. -/
theorem C2_uniform_duration_cex :
    (plans 125 60 0 [100] none)[0]? =
      some { index := 1, start := 100, stop := 125, padTime := 0 } ∧
    (plans 125 60 0 [100] none).length = 3 ∧
    (125 : ℚ) - 100 + 0 ≠ 60 := by
  have h : plans 125 60 0 [100] none =
      [⟨1, 100, 125, 0⟩, ⟨2, 100, 125, 0⟩, ⟨3, 100, 125, 35⟩] := by
    unfold plans
    rw [numParts_125_60]
    norm_num [List.range_succ, planPart, planPartInstr, clampedStart, adjust_to_keyframe]
  rw [h]
  norm_num

/-- C2 amended: every plan satisfies `0 ≤ start ≤ end ≤ videoDuration` (with
`start = end` possible when snapping degenerates the range); the final plan,
unless confirmed-elongated, satisfies `end - start + padDuration =
segmentDuration` exactly; a non-final plan satisfies that equation whenever
its snapped, offset, clamped start leaves at least `segmentDuration` of video
before `videoDuration` (keyframe snapping can otherwise leave it short). -/
theorem C2_plan_bounds_amended (vd sd offset : ℚ) (kfs : List ℚ)
    (ask : Option (ℚ → Bool)) (hvd : 0 < vd) (hsd : 0 < sd) :
    ∀ p ∈ plans vd sd offset kfs ask,
      (0 ≤ p.start ∧ p.start ≤ p.stop ∧ p.stop ≤ vd) ∧
      (p.index = numParts vd sd → ¬confirmedElongated vd sd offset kfs ask →
        p.stop - p.start + p.padTime = sd) ∧
      (p.index ≠ numParts vd sd → p.start + sd ≤ vd →
        p.stop - p.start + p.padTime = sd) := by
  intro p hp
  rw [plans, List.mem_map] at hp
  obtain ⟨i, hi, rfl⟩ := hp
  rw [List.mem_range] at hi
  have h0 : 0 ≤ clampedStart vd sd offset kfs i := clampedStart_nonneg vd sd offset kfs i
  have h1 : clampedStart vd sd offset kfs i ≤ vd :=
    clampedStart_le_vd vd sd offset kfs i hvd.le
  by_cases hfin : i = numParts vd sd - 1
  · have hn1 : numParts vd sd - 1 + 1 = numParts vd sd := by omega
    subst hfin
    by_cases hpad : vd - clampedStart vd sd offset kfs (numParts vd sd - 1) < sd
    · rw [planPart, planPartInstr_final_pad vd sd offset kfs ask (numParts vd sd) hpad]
      have hstop : min (clampedStart vd sd offset kfs (numParts vd sd - 1) + sd) vd = vd :=
        min_eq_right (by linarith)
      dsimp only
      rw [hstop]
      refine ⟨⟨h0, h1, le_refl vd⟩, fun _ _ => by ring, fun hne _ => absurd hn1 hne⟩
    · have hge : sd ≤ vd - clampedStart vd sd offset kfs (numParts vd sd - 1) :=
        not_lt.mp hpad
      have hstop : min (clampedStart vd sd offset kfs (numParts vd sd - 1) + sd) vd =
          clampedStart vd sd offset kfs (numParts vd sd - 1) + sd :=
        min_eq_left (by linarith)
      by_cases hw : sd < vd - clampedStart vd sd offset kfs (numParts vd sd - 1) ∧
          vd - clampedStart vd sd offset kfs (numParts vd sd - 1) ≤ sd * (11/10)
      · match ask with
        | none =>
          rw [planPart, planPartInstr_final_window_none vd sd offset kfs
            (numParts vd sd) hw.1 hw.2]
          dsimp only
          rw [hstop]
          exact ⟨⟨h0, by linarith, by linarith⟩, fun _ _ => by ring,
            fun hne _ => absurd hn1 hne⟩
        | some c =>
          rw [planPart, planPartInstr_final_window_some vd sd offset kfs c
            (numParts vd sd) hw.1 hw.2]
          by_cases hc : c (vd - clampedStart vd sd offset kfs (numParts vd sd - 1))
          · dsimp only
            rw [if_pos hc]
            have helong : confirmedElongated vd sd offset kfs (some c) := by
              unfold confirmedElongated
              exact ⟨hw.1, hw.2, hc⟩
            exact ⟨⟨h0, h1, le_refl vd⟩, fun _ hne => absurd helong hne,
              fun hne _ => absurd hn1 hne⟩
          · dsimp only
            rw [if_neg hc, hstop]
            exact ⟨⟨h0, by linarith, by linarith⟩, fun _ _ => by ring,
              fun hne _ => absurd hn1 hne⟩
      · rw [planPart, planPartInstr_final_nowindow vd sd offset kfs ask
          (numParts vd sd) hge hw]
        dsimp only
        rw [hstop]
        exact ⟨⟨h0, by linarith, by linarith⟩, fun _ _ => by ring,
          fun hne _ => absurd hn1 hne⟩
  · rw [planPart, planPartInstr_ne_final vd sd offset kfs ask (numParts vd sd) i hfin]
    dsimp only
    refine ⟨⟨h0, le_min (by linarith) h1, min_le_right _ _⟩, ?_, ?_⟩
    · intro hidx
      exact absurd (by omega : i = numParts vd sd - 1) hfin
    · intro _ hroom
      rw [min_eq_left hroom]
      ring

/-- C2 witness: plan 1 of the no-keyframe 125s/60s scenario satisfies the
bounds and the uniform-duration equation. -/
theorem C2_plan_bounds_amended_witness :
    (0 ≤ (⟨1, 0, 60, 0⟩ : SegmentPlan).start ∧
      (⟨1, 0, 60, 0⟩ : SegmentPlan).start ≤ (⟨1, 0, 60, 0⟩ : SegmentPlan).stop ∧
      (⟨1, 0, 60, 0⟩ : SegmentPlan).stop ≤ 125) ∧
    (⟨1, 0, 60, 0⟩ : SegmentPlan).stop - (⟨1, 0, 60, 0⟩ : SegmentPlan).start +
      (⟨1, 0, 60, 0⟩ : SegmentPlan).padTime = 60 := by
  have h := C2_plan_bounds_amended 125 60 0 [] none (by norm_num) (by norm_num)
    ⟨1, 0, 60, 0⟩ (by rw [plans_125_60_nokf]; exact List.mem_cons_self _ _)
  exact ⟨h.1, h.2.2 (by simp [numParts_125_60]) (by norm_num)⟩

/-!  C6: `adjust_to_keyframe` returns the first stored timestamp of minimal
absolute distance.  The fold keeps its accumulator unless a strictly closer
candidate appears, exactly like CPython `min(..., key=...)`. -/

lemma nearest_foldl_le (t b : ℚ) (l : List ℚ) :
    |l.foldl (fun best x => if |x - t| < |best - t| then x else best) b - t| ≤ |b - t| ∧
    ∀ x ∈ l,
      |l.foldl (fun best x => if |x - t| < |best - t| then x else best) b - t| ≤ |x - t| := by
  induction l generalizing b with
  | nil => exact ⟨le_refl _, fun x hx => absurd hx (List.not_mem_nil x)⟩
  | cons y ys ih =>
    rw [List.foldl_cons]
    by_cases h : |y - t| < |b - t|
    · rw [if_pos h]
      obtain ⟨h1, h2⟩ := ih y
      refine ⟨h1.trans h.le, fun x hx => ?_⟩
      rcases List.mem_cons.mp hx with rfl | hx
      · exact h1
      · exact h2 x hx
    · rw [if_neg h]
      obtain ⟨h1, h2⟩ := ih b
      refine ⟨h1, fun x hx => ?_⟩
      rcases List.mem_cons.mp hx with rfl | hx
      · exact h1.trans (not_lt.mp h)
      · exact h2 x hx

lemma nearest_foldl_first (t b : ℚ) (l : List ℚ) :
    l.foldl (fun best x => if |x - t| < |best - t| then x else best) b = b ∨
    ∃ pre post,
      l = pre ++
        (l.foldl (fun best x => if |x - t| < |best - t| then x else best) b) :: post ∧
      |l.foldl (fun best x => if |x - t| < |best - t| then x else best) b - t| < |b - t| ∧
      ∀ x ∈ pre,
        |l.foldl (fun best x => if |x - t| < |best - t| then x else best) b - t| < |x - t| := by
  induction l generalizing b with
  | nil => left; rfl
  | cons y ys ih =>
    rw [List.foldl_cons]
    by_cases h : |y - t| < |b - t|
    · rw [if_pos h]
      right
      rcases ih y with heq | ⟨pre, post, hsplit, hlt, hpre⟩
      · exact ⟨[], ys, by simp [heq], by rw [heq]; exact h,
          fun x hx => absurd hx (List.not_mem_nil x)⟩
      · refine ⟨y :: pre, post, by rw [List.cons_append, ← hsplit], hlt.trans h, ?_⟩
        intro x hx
        rcases List.mem_cons.mp hx with rfl | hx
        · exact hlt
        · exact hpre x hx
    · rw [if_neg h]
      rcases ih b with heq | ⟨pre, post, hsplit, hlt, hpre⟩
      · left; exact heq
      · right
        refine ⟨y :: pre, post, by rw [List.cons_append, ← hsplit], hlt, ?_⟩
        intro x hx
        rcases List.mem_cons.mp hx with rfl | hx
        · exact hlt.trans_le (not_lt.mp h)
        · exact hpre x hx

/-- C6: for every `t` and stored keyframe list, `adjust_to_keyframe` returns
`t` unchanged on the empty index; on a non-empty index it returns a stored
timestamp of minimum absolute distance to `t`, and every stored timestamp
strictly before that occurrence is strictly farther — i.e. ties resolve to
the first minimal candidate in stored order. -/
theorem C6_nearest_first_minimal (t : ℚ) (l : List ℚ) :
    (l = [] → adjust_to_keyframe t l = t) ∧
    (l ≠ [] → ∃ pre post,
      l = pre ++ adjust_to_keyframe t l :: post ∧
      (∀ x ∈ l, |adjust_to_keyframe t l - t| ≤ |x - t|) ∧
      (∀ x ∈ pre, |adjust_to_keyframe t l - t| < |x - t|)) := by
  constructor
  · intro h; subst h; rfl
  · intro hne
    match l with
    | [] => exact absurd rfl hne
    | k :: ks =>
      have hfold : adjust_to_keyframe t (k :: ks) =
          ks.foldl (fun best x => if |x - t| < |best - t| then x else best) k := rfl
      obtain ⟨hle, hall⟩ := nearest_foldl_le t k ks
      rcases nearest_foldl_first t k ks with heq | ⟨pre, post, hsplit, hlt, hpre⟩
      · refine ⟨[], ks, by simp [hfold, heq], ?_,
          fun x hx => absurd hx (List.not_mem_nil x)⟩
        intro x hx
        rw [hfold]
        rcases List.mem_cons.mp hx with rfl | hx
        · exact hle
        · exact hall x hx
      · refine ⟨k :: pre, post, ?_, ?_, ?_⟩
        · rw [hfold, List.cons_append, ← hsplit]
        · intro x hx
          rw [hfold]
          rcases List.mem_cons.mp hx with rfl | hx
          · exact hle
          · exact hall x hx
        · intro x hx
          rw [hfold]
          rcases List.mem_cons.mp hx with rfl | hx
          · exact hlt
          · exact hpre x hx

/-- C6 witness: the empty-index fallback at `t = 7`, and the first-minimal
decomposition on `[3, 10, 4]` (where 10 and 4 tie at distance 3). -/
theorem C6_nearest_first_minimal_witness :
    adjust_to_keyframe 7 ([] : List ℚ) = 7 ∧
    ∃ pre post, [(3 : ℚ), 10, 4] = pre ++ adjust_to_keyframe 7 [(3 : ℚ), 10, 4] :: post ∧
      (∀ x ∈ [(3 : ℚ), 10, 4], |adjust_to_keyframe 7 [(3 : ℚ), 10, 4] - 7| ≤ |x - 7|) ∧
      (∀ x ∈ pre, |adjust_to_keyframe 7 [(3 : ℚ), 10, 4] - 7| < |x - 7|) :=
  ⟨(C6_nearest_first_minimal 7 []).1 rfl,
   (C6_nearest_first_minimal 7 [3, 10, 4]).2 (by simp)⟩

example : adjust_to_keyframe 7 [3, 10, 4] = 10 := by
  norm_num [adjust_to_keyframe]

/-!  C7: error composition of `export_and_pad`. -/

/-- C7: for every environment and oracle outcome, a failed cut returns
`success = false` with the captured diagnostic and never attempts padding;
a successful cut followed by a failed required pad returns `success = false`
with the pad diagnostic; and `success = true` with a `none` error holds
exactly when the cut succeeded and any required padding (`pad_time > 0`)
succeeded. -/
theorem C7_export_error_composition (env : List String) (hasAudio : Bool)
    (load write move : Except String Unit) (path : String) (padTime : ℚ) :
    (∀ e, export_and_pad_instr env hasAudio (.error e) load write move path padTime =
      ((path, false, some e), false)) ∧
    (0 < padTime → (pad_with_black env hasAudio load write move).ok = false →
      export_and_pad env hasAudio (.ok ()) load write move path padTime =
        (path, false, (pad_with_black env hasAudio load write move).err)) ∧
    (∀ cut : Except String Unit,
      ((export_and_pad env hasAudio cut load write move path padTime).2.1 = true ∧
       (export_and_pad env hasAudio cut load write move path padTime).2.2 = none) ↔
      (cut = .ok () ∧
        (0 < padTime → (pad_with_black env hasAudio load write move).ok = true))) := by
  refine ⟨?_, ?_, ?_⟩
  · intro e
    unfold export_and_pad_instr export_part
    simp
  · intro hp hok
    unfold export_and_pad export_and_pad_instr export_part
    simp [hp, hok]
  · intro cut
    match cut with
    | .error e =>
      unfold export_and_pad export_and_pad_instr export_part
      simp
    | .ok u =>
      cases u
      unfold export_and_pad export_and_pad_instr export_part
      by_cases hp : 0 < padTime
      · by_cases hok : (pad_with_black env hasAudio load write move).ok
        · simp [hp, hok]
        · simp [hp, hok]
      · simp [hp]

/-- C7 witness: in an empty namespace with all oracles succeeding and
`padTime = 1`, the pad step fails (unbound `PRESET`), so the export result is
a failure carrying the pad diagnostic. -/
theorem C7_export_error_composition_witness :
    export_and_pad [] false (.ok ()) (.ok ()) (.ok ()) (.ok ()) "out.mp4" 1 =
      ("out.mp4", false, some "NameError: name PRESET is not defined") := by
  have h := (C7_export_error_composition [] false (.ok ()) (.ok ()) (.ok ())
    "out.mp4" 1).2.1 (by norm_num) (by rfl)
  rw [h]
  rfl

/-!  C10: the unbound encoder constants in `instavideosplitter.pad_with_black`. -/

/-- C10: run in the `instavideosplitter` module namespace, the write call of
`pad_with_black` references encoder constants bound only in `export_part.py`
(`AUDIO_CODEC`/`AUDIO_BITRATE` when audio is present, else `PRESET` first), so
for every oracle outcome it returns `ok = false` with an error message, the
temporary file is never moved over the target, the message is the `NameError`
for the first unbound name whenever loading succeeded, and every
`export_and_pad` call with `padTime > 0` yields a failed result. -/
theorem C10_pad_unbound_names (hasAudio : Bool) (load write move cut : Except String Unit)
    (path : String) (padTime : ℚ) :
    (pad_with_black instavideosplitter_globals hasAudio load write move).ok = false ∧
    (pad_with_black instavideosplitter_globals hasAudio load write move).replaced = false ∧
    (pad_with_black instavideosplitter_globals hasAudio load write move).err.isSome = true ∧
    (load = .ok () →
      (pad_with_black instavideosplitter_globals hasAudio load write move).err =
        some ("NameError: name " ++ (if hasAudio then "AUDIO_CODEC" else "PRESET") ++
          " is not defined")) ∧
    (0 < padTime →
      (export_and_pad instavideosplitter_globals hasAudio cut load write move
        path padTime).2.1 = false) := by
  have hpad : ∀ write_ move_ : Except String Unit,
      pad_with_black instavideosplitter_globals hasAudio (.ok ()) write_ move_ =
        ⟨false, some ("NameError: name " ++ (if hasAudio then "AUDIO_CODEC" else "PRESET") ++
          " is not defined"), false⟩ := by
    intro write_ move_
    cases hasAudio <;> rfl
  match load with
  | .error e =>
    refine ⟨rfl, rfl, rfl, fun h => by simp at h, ?_⟩
    intro hp
    match cut with
    | .error e2 => rfl
    | .ok u =>
      cases u
      unfold export_and_pad export_and_pad_instr export_part
      simp [hp, pad_with_black]
  | .ok u =>
    cases u
    rw [hpad write move]
    refine ⟨rfl, rfl, rfl, fun _ => rfl, ?_⟩
    intro hp
    match cut with
    | .error e2 => rfl
    | .ok u2 =>
      cases u2
      unfold export_and_pad export_and_pad_instr export_part
      simp [hp, hpad]

/-- C10 witness: with audio present and all external steps succeeding, the pad
fails on `AUDIO_CODEC` and a padded export (`padTime = 30`) fails. -/
theorem C10_pad_unbound_names_witness :
    (pad_with_black instavideosplitter_globals true (.ok ()) (.ok ()) (.ok ())).ok = false ∧
    (pad_with_black instavideosplitter_globals true (.ok ()) (.ok ()) (.ok ())).err =
      some "NameError: name AUDIO_CODEC is not defined" ∧
    (export_and_pad instavideosplitter_globals true (.ok ()) (.ok ()) (.ok ()) (.ok ())
      "out.mp4" 30).2.1 = false := by
  have h := C10_pad_unbound_names true (.ok ()) (.ok ()) (.ok ()) (.ok ()) "out.mp4" 30
  exact ⟨h.1, by simpa using h.2.2.2.1 rfl, h.2.2.2.2 (by norm_num)⟩

/-!  C8: what `get_keyframes` actually builds. -/

lemma get_keyframes_foldl (frames : List FrameInfo) (acc : List ℚ) :
    frames.foldl (fun acc f =>
      if f.pict_kind = "I" then
        match f.pkt_pts_time.orElse (fun _ => f.pts_time) with
        | some t => acc ++ [t]
        | none => acc
      else acc) acc =
    acc ++ frames.filterMap (fun f =>
      if f.pict_kind = "I" then f.pkt_pts_time.orElse (fun _ => f.pts_time) else none) := by
  induction frames generalizing acc with
  | nil => simp
  | cons f fs ih =>
    rw [List.foldl_cons, List.filterMap_cons]
    by_cases hI : f.pict_kind = "I"
    · rw [if_pos hI, if_pos hI]
      cases horelse : f.pkt_pts_time.orElse (fun _ => f.pts_time) with
      | none => simp only [horelse]; exact ih acc
      | some t =>
        simp only [horelse]
        rw [ih (acc ++ [t])]
        simp
    · rw [if_neg hI, if_neg hI]
      exact ih acc

/-- C8 counterexample: the prober frame list `I@5, I@3, I@3, I@-1` builds the
index `[5, 3, 3, -1]`, which is neither strictly increasing nor deduplicated
nor non-negative: `get_keyframes` applies no sorting, deduplication or sign
filtering. -/
theorem C8_keyframe_order_cex :
    get_keyframes (some [⟨"I", some 5, none⟩, ⟨"I", some 3, none⟩,
      ⟨"I", some 3, none⟩, ⟨"I", some (-1), none⟩]) = [5, 3, 3, -1] ∧
    ¬ List.Chain' (· < ·) [(5 : ℚ), 3, 3, -1] ∧
    ¬ (∀ t ∈ [(5 : ℚ), 3, 3, -1], 0 ≤ t) := by
  refine ⟨rfl, ?_, ?_⟩
  · norm_num [List.chain'_cons]
  · push_neg
    exact ⟨-1, by simp, by norm_num⟩

/-- C8 amended: the KeyframeIndex is exactly the timestamps of the I-frames in
prober order (`pkt_pts_time`, falling back to `pts_time`), with no ordering,
deduplication or non-negativity enforced; any probe failure yields the empty
index, a valid state. -/
theorem C8_keyframes_amended :
    get_keyframes none = [] ∧
    ∀ frames, get_keyframes (some frames) =
      frames.filterMap (fun f =>
        if f.pict_kind = "I" then f.pkt_pts_time.orElse (fun _ => f.pts_time) else none) := by
  refine ⟨rfl, fun frames => ?_⟩
  unfold get_keyframes
  dsimp only
  rw [get_keyframes_foldl]
  simp

/-!  C9: idempotent re-runs of the coordinator. -/

/-- C9: if every planned output path already exists, the coordinator submits
zero export tasks — each part is skipped before dispatch — while still
returning the same `num_parts` total as a run against any other filesystem
state (skipped plans count toward the reported total). -/
theorem C9_idempotent_rerun (vd sd offset : ℚ) (kfs : List ℚ)
    (ask : Option (ℚ → Bool)) (outputDir baseName : String) (fs1 fs2 : String → Bool)
    (h : ∀ i < numParts vd sd, fs2 (outputPath outputDir baseName i) = true) :
    (trim_video_to_parts vd sd offset kfs ask fs2 outputDir baseName).1 = [] ∧
    (trim_video_to_parts vd sd offset kfs ask fs2 outputDir baseName).2 =
      (trim_video_to_parts vd sd offset kfs ask fs1 outputDir baseName).2 := by
  constructor
  · unfold trim_video_to_parts
    dsimp only
    rw [List.filterMap_eq_nil_iff]
    intro i hi
    rw [List.mem_range] at hi
    simp [h i hi]
  · rfl

/-- C9 witness: a second run of the 125s/60s scenario with every output
present submits nothing and still reports the same total as a fresh run. -/
theorem C9_idempotent_rerun_witness :
    (trim_video_to_parts 125 60 0 [] none (fun _ => true) "out" "video").1 = [] ∧
    (trim_video_to_parts 125 60 0 [] none (fun _ => true) "out" "video").2 =
      (trim_video_to_parts 125 60 0 [] none (fun _ => false) "out" "video").2 :=
  C9_idempotent_rerun 125 60 0 [] none "out" "video" (fun _ => false) (fun _ => true)
    (fun _ _ => rfl)
